import Mathlib

/-!
Verification of `scripts/generate-pptx.py`: a command-line utility that turns a
background image plus a JSON layout into a single-slide PowerPoint file.

Embedding conventions:
* Python numbers (JSON numbers / floats) are modelled as exact rationals `ℚ`;
  the program only performs additions, subtractions, multiplications and
  divisions by constants, which the spec states over exact arithmetic.
* Geometry is modelled in inches, as computed by `main` before the values are
  wrapped in the library's `Inches(...)` constructor (the EMU serialization is
  owned by python-pptx, not by this script).
* Fallible operations (Python exceptions) are modelled with `Option`.
* `sys.argv`, the filesystem check `Path.exists`, and `json.load` plus the
  required-key accesses are abstracted into an `Env` record; `main` is a pure
  function of that environment.
-/

namespace GenPptx

/-- `DPI = 300` (module constant of the script). -/
def DPI : ℚ := 300

/-- `px_to_inches(px) = px / DPI`. -/
def px_to_inches (px : ℚ) : ℚ := px / DPI

/-! ### Python `int(s, 16)` and `hex_to_rgb` -/

/-- ASCII hexadecimal digit test (`0`-`9`, `a`-`f`, `A`-`F`, by codepoint), as
accepted by Python's `int(·, 16)`.  Python additionally accepts non-ASCII
Unicode decimal digits; those are not modelled (no claim touches them). -/
def isHexDigit (c : Char) : Bool :=
  (48 ≤ c.toNat && c.toNat ≤ 57) ||
  (97 ≤ c.toNat && c.toNat ≤ 102) ||
  (65 ≤ c.toNat && c.toNat ≤ 70)

/-- Numeric value of a hexadecimal digit character. -/
def hexDigitVal (c : Char) : Nat :=
  if 48 ≤ c.toNat ∧ c.toNat ≤ 57 then c.toNat - 48
  else if 97 ≤ c.toNat ∧ c.toNat ≤ 102 then c.toNat - 87
  else if 65 ≤ c.toNat ∧ c.toNat ≤ 70 then c.toNat - 55
  else 0

/-- ASCII whitespace stripped by Python's `int` before parsing: space, tab,
newline, carriage return, vertical tab, form feed (codepoints 32, 9, 10, 13,
11, 12). -/
def isPySpace (c : Char) : Bool :=
  c.toNat == 32 || c.toNat == 9 || c.toNat == 10 ||
  c.toNat == 13 || c.toNat == 11 || c.toNat == 12

/-- After the first digit of a Python integer literal body: hexadecimal digits
with single underscores (codepoint 95) allowed only between digits. -/
def hexTailOk : List Char → Bool
  | [] => true
  | c :: rest =>
    if c.toNat == 95 then
      match rest with
      | [] => false
      | d :: rest2 => isHexDigit d && hexTailOk rest2
    else isHexDigit c && hexTailOk rest

/-- A valid (unsigned) body for Python's `int(·, 16)`: nonempty, starts with a
hexadecimal digit, underscores only between digits.  The `0x`/`0X` prefix form
is not modelled: it needs at least three characters and every string this
script parses has at most two. -/
def hexDigitsOk : List Char → Bool
  | [] => false
  | c :: rest => isHexDigit c && hexTailOk rest

/-- Value of a digit body (underscores skipped), most significant digit first. -/
def hexValue (l : List Char) : Nat :=
  (l.filter (fun c => c.toNat != 95)).foldl (fun acc c => acc * 16 + hexDigitVal c) 0

/-- Strip leading and trailing whitespace, as Python's `int` does before
parsing. -/
def pyTrim (l : List Char) : List Char :=
  ((l.dropWhile isPySpace).reverse.dropWhile isPySpace).reverse

/-- The sign-and-digit-body phase of Python's `int(·, 16)` on the trimmed
character list: an optional sign (`+` is codepoint 43, `-` is 45) followed by
a nonempty hexadecimal digit body. -/
def pyIntBase16Core : List Char → Option Int
  | [] => none
  | c :: rest =>
    if c.toNat == 43 then
      if hexDigitsOk rest then some (hexValue rest) else none
    else if c.toNat == 45 then
      if hexDigitsOk rest then some (-(hexValue rest : Int)) else none
    else if hexDigitsOk (c :: rest) then some (hexValue (c :: rest)) else none

/-- Python's `int(s, 16)` on a character list: strip surrounding whitespace,
parse an optional sign, then a nonempty hexadecimal digit body; `none` models
the `ValueError` raised otherwise. -/
def pyIntBase16 (l : List Char) : Option Int :=
  pyIntBase16Core (pyTrim l)

/-- Python slice `l[a:b]` for `0 ≤ a ≤ b` (out-of-range indices clamp). -/
def pySlice (l : List Char) (a b : Nat) : List Char :=
  (l.drop a).take (b - a)

/-- An RGB color triple as held by python-pptx's `RGBColor`. -/
structure RGBColor where
  r : Nat
  g : Nat
  b : Nat
deriving DecidableEq

/-- python-pptx `RGBColor(r, g, b)`: raises `ValueError` unless each component
is an integer in `0..255`. -/
def mkRGBColor (r g b : Int) : Option RGBColor :=
  if 0 ≤ r ∧ r ≤ 255 ∧ 0 ≤ g ∧ g ≤ 255 ∧ 0 ≤ b ∧ b ≤ 255 then
    some ⟨r.toNat, g.toNat, b.toNat⟩
  else none

/-- `hex_to_rgb`: strip every leading `#` (Python `lstrip("#")`), decode the
character slices `[0:2]`, `[2:4]`, `[4:6]` with `int(·, 16)`, and build the
`RGBColor`; `none` models any raised exception. -/
def hex_to_rgb (s : String) : Option RGBColor :=
  match pyIntBase16 (pySlice (s.toList.dropWhile fun c => c == '#') 0 2),
        pyIntBase16 (pySlice (s.toList.dropWhile fun c => c == '#') 2 4),
        pyIntBase16 (pySlice (s.toList.dropWhile fun c => c == '#') 4 6) with
  | some r, some g, some b => mkRGBColor r g b
  | _, _, _ => none

/-! ### Alignment and per-element geometry -/

/-- python-pptx paragraph alignment values used by the script. -/
inductive PPAlign where
  | left
  | center
  | right
deriving DecidableEq

/-- `get_alignment(anchor)`. -/
def get_alignment (anchor : String) : PPAlign :=
  if anchor = "middle" then .center
  else if anchor = "end" then .right
  else .left

/-- A layout element as read from the JSON (`el` in the loop).  Optional JSON
keys are `Option`-valued; `main` reads them with `el.get(...)` defaults. -/
structure TextElement where
  text : String
  x : ℚ
  y : ℚ
  fontSize : ℚ
  fontFamily : Option String := none
  fontWeight : Option String := none
  color : Option String := none
  anchor : Option String := none
  maxWidth : Option ℚ := none
deriving DecidableEq

/-- The layout JSON document. -/
structure Layout where
  width : ℚ
  height : ℚ
  elements : List TextElement
deriving DecidableEq

/-- `max_width = el.get("maxWidth", layout["width"] * 0.8)`. -/
def maxWidthOf (layoutWidth : ℚ) (el : TextElement) : ℚ :=
  el.maxWidth.getD (layoutWidth * (8 / 10))

/-- `anchor = el.get("anchor", "start")`. -/
def anchorOf (el : TextElement) : String :=
  el.anchor.getD "start"

/-- The x position computed from the anchor, before clamping
(`x_in` right after the `if anchor == ...` chain). -/
def rawLeft (layoutWidth : ℚ) (el : TextElement) : ℚ :=
  let box_width := px_to_inches (maxWidthOf layoutWidth el)
  if anchorOf el = "middle" then px_to_inches el.x - box_width / 2
  else if anchorOf el = "end" then px_to_inches el.x - box_width
  else px_to_inches el.x

/-- The y position before clamping (`y_in = px_to_inches(y_px - font_size)`). -/
def rawTop (el : TextElement) : ℚ :=
  px_to_inches (el.y - el.fontSize)

/-- One text-box shape as configured by the loop body: geometry in inches,
paragraph alignment, and the single run's styling. -/
structure TextBox where
  left : ℚ
  top : ℚ
  width : ℚ
  height : ℚ
  text : String
  alignment : PPAlign
  fontSizePt : ℚ
  bold : Bool
  color : RGBColor
  fontFamily : String
deriving DecidableEq

/-- The loop body of `main` for one element: computes the box geometry, clamps
`left`/`top` at 0, and styles the single run.  `none` models the exception
raised by `hex_to_rgb` on a bad color string, which aborts the whole run. -/
def makeTextBox (layoutWidth : ℚ) (el : TextElement) : Option TextBox :=
  match hex_to_rgb (el.color.getD "#000000") with
  | none => none
  | some rgb =>
    some {
      left := max 0 (rawLeft layoutWidth el)
      top := max 0 (rawTop el)
      width := px_to_inches (maxWidthOf layoutWidth el)
      height := px_to_inches (el.fontSize * 2)
      text := el.text
      alignment := get_alignment (anchorOf el)
      fontSizePt := el.fontSize * 72 / DPI
      bold := el.fontWeight == some "bold"
      color := rgb
      fontFamily := el.fontFamily.getD "Arial" }

/-! ### The slide, the document and `main` -/

/-- The background picture shape
(`slide.shapes.add_picture(bg, 0, 0, width_in, height_in)`). -/
structure Picture where
  imagePath : String
  left : ℚ
  top : ℚ
  width : ℚ
  height : ℚ
deriving DecidableEq

/-- A shape on the slide, in insertion order. -/
inductive Shape where
  | pic (p : Picture)
  | tbox (t : TextBox)
deriving DecidableEq

/-- The single slide: canvas size in inches plus its shapes in order. -/
structure Slide where
  width : ℚ
  height : ℚ
  shapes : List Shape
deriving DecidableEq

/-- Traverse a list with a fallible function, aborting at the first failure:
the shape of the `for el in layout["elements"]` loop, where any exception
aborts the run before `prs.save`. -/
def mapOpt (f : α → Option β) : List α → Option (List β)
  | [] => some []
  | a :: l =>
    match f a, mapOpt f l with
    | some b, some bs => some (b :: bs)
    | _, _ => none

/-- Build the one slide of the presentation from the background path and the
parsed layout: the full-bleed picture first, then one text box per element. -/
def buildSlide (bg : String) (layout : Layout) : Option Slide :=
  let width_in := px_to_inches layout.width
  let height_in := px_to_inches layout.height
  match mapOpt (makeTextBox layout.width) layout.elements with
  | none => none
  | some boxes =>
    some {
      width := width_in
      height := height_in
      shapes := Shape.pic ⟨bg, 0, 0, width_in, height_in⟩ :: boxes.map Shape.tbox }

/-- The saved presentation: its list of slides. -/
structure Document where
  slides : List Slide
deriving DecidableEq

/-- The document `prs` as saved: a fresh presentation holds no slide, and
`add_slide` is called exactly once. -/
def buildDocument (bg : String) (layout : Layout) : Option Document :=
  match buildSlide bg layout with
  | none => none
  | some s => some ⟨[s]⟩

/-- The ambient state `main` consumes: `sys.argv` (program name included),
the filesystem existence test used on the background path, and the composite
of `json.load` plus the required-key accesses on the parsed layout (`none`
models a JSON parse error or a missing required key, both uncaught). -/
structure Env where
  argv : List String
  fileExists : String → Bool
  readLayout : String → Option Layout

/-- How a run of `main` terminates. -/
inductive MainResult where
  | exited (code : Nat)
  | uncaught
  | ok (outPath : String) (doc : Document)
deriving DecidableEq

/-- `main`: argument-count check (`len(sys.argv) != 4`), background existence
check, layout read, document construction, save.  `exited 1` models
`sys.exit(1)` after a message on stderr; `uncaught` models an uncaught
exception (non-zero exit with traceback); `ok` models a successful save of
`doc` at the output path followed by printing that path. -/
def mainRun (env : Env) : MainResult :=
  match env.argv with
  | [_prog, bg, layoutPath, outPath] =>
    if env.fileExists bg then
      match env.readLayout layoutPath with
      | none => .uncaught
      | some layout =>
        match buildDocument bg layout with
        | none => .uncaught
        | some doc => .ok outPath doc
    else .exited 1
  | _ => .exited 1

/-- The output file contents produced by a run: the only write the script
performs is the single `prs.save` at the very end of `main`, so a failing run
leaves no output. -/
def outputOf : MainResult → Option Document
  | .ok _ doc => some doc
  | _ => none

/-! ### Auxiliary predicates and concrete sample data -/

/-- The error condition claim C10 asserts for `hex_to_rgb`, transcribed from
the claim's words for comparison with the code: after stripping `#`s, one of
the slices `[0:2]`, `[2:4]`, `[4:6]` is empty or contains a character that is
not a hexadecimal digit. -/
def c10ClaimedErrorCond (s : String) : Bool :=
  let t := s.toList.dropWhile (fun c => c == '#')
  ((pySlice t 0 2).isEmpty || !((pySlice t 0 2).all isHexDigit)) ||
  ((pySlice t 2 4).isEmpty || !((pySlice t 2 4).all isHexDigit)) ||
  ((pySlice t 4 6).isEmpty || !((pySlice t 4 6).all isHexDigit))

/-- A slice outcome on which `hex_to_rgb` raises: Python's `int(·, 16)`
rejects the slice outright, or it parses to a negative value, which the
`RGBColor` range check then rejects. -/
def sliceRejected (l : List Char) : Prop :=
  pyIntBase16 l = none ∨ ∃ v : Int, pyIntBase16 l = some v ∧ v < 0

/-- A concrete element used to instantiate the per-element theorems:
centered text at baseline (500, 100) with font size 40 on a 1000-px-wide
layout, all optional keys other than `anchor` absent. -/
def elM : TextElement :=
  { text := "Hi", x := 500, y := 100, fontSize := 40, anchor := some "middle" }

/-- The text box `main` builds for `elM` on a 1000-px-wide layout:
`maxWidth` defaults to 800 px (8/3 in), the centered left edge is
`500/300 - (8/3)/2 = 1/3`, the top is `(100-40)/300 = 1/5`, and the run is
9.6 pt, non-bold, black, Arial. -/
def tbM : TextBox :=
  { left := 1 / 3, top := 1 / 5, width := 8 / 3, height := 4 / 15,
    text := "Hi", alignment := .center, fontSizePt := 48 / 5,
    bold := false, color := ⟨0, 0, 0⟩, fontFamily := "Arial" }

/-- A concrete layout with the single element `elM`. -/
def layoutW : Layout := { width := 1000, height := 800, elements := [elM] }

/-- A concrete environment: well-formed argument vector, every file exists,
and the layout file parses to `layoutW`. -/
def envW : Env :=
  { argv := ["generate-pptx.py", "bg.png", "layout.json", "out.pptx"],
    fileExists := fun _ => true,
    readLayout := fun _ => some layoutW }

/-- The document `mainRun envW` saves: one 10/3 in × 8/3 in slide holding the
full-bleed background picture and the text box for `elM`. -/
def docW : Document :=
  ⟨[{ width := 10 / 3, height := 8 / 3,
      shapes := [Shape.pic ⟨"bg.png", 0, 0, 10 / 3, 8 / 3⟩, Shape.tbox tbM] }]⟩

/-! ## Supporting lemmas -/

lemma isHexDigit_range {c : Char} (h : isHexDigit c = true) :
    (48 ≤ c.toNat ∧ c.toNat ≤ 57) ∨ (97 ≤ c.toNat ∧ c.toNat ≤ 102) ∨
    (65 ≤ c.toNat ∧ c.toNat ≤ 70) := by
  simpa [isHexDigit, or_assoc] using h

lemma hexDigitVal_le (c : Char) : hexDigitVal c ≤ 15 := by
  unfold hexDigitVal
  split_ifs <;> omega

lemma isHexDigit_facts {c : Char} (h : isHexDigit c = true) :
    isPySpace c = false ∧ (c.toNat == 43) = false ∧ (c.toNat == 45) = false ∧
    (c.toNat == 95) = false ∧ (c == '#') = false := by
  have hr := isHexDigit_range h
  refine ⟨?_, ?_, ?_, ?_, ?_⟩
  · simp only [isPySpace, Bool.or_eq_false_iff, beq_eq_false_iff_ne, ne_eq]
    omega
  · simp only [beq_eq_false_iff_ne, ne_eq]; omega
  · simp only [beq_eq_false_iff_ne, ne_eq]; omega
  · simp only [beq_eq_false_iff_ne, ne_eq]; omega
  · simp only [beq_eq_false_iff_ne, ne_eq]
    rintro rfl
    have h35 : ('#' : Char).toNat = 35 := rfl
    omega

lemma pyIntBase16_hexList {l : List Char} (hne : l ≠ []) (hlen : l.length ≤ 2)
    (h : l.all isHexDigit = true) : pyIntBase16 l = some (hexValue l) := by
  rcases l with _ | ⟨c, _ | ⟨d, _ | ⟨e, m⟩⟩⟩
  · exact absurd rfl hne
  · simp only [List.all_cons, List.all_nil, Bool.and_true] at h
    obtain ⟨hsp, h43, h45, h95, _⟩ := isHexDigit_facts h
    simp [pyIntBase16, pyTrim, pyIntBase16Core, List.dropWhile, hsp, h43, h45,
      hexDigitsOk, hexTailOk, h95, h]
  · simp only [List.all_cons, List.all_nil, Bool.and_true, Bool.and_eq_true] at h
    obtain ⟨hc, hd⟩ := h
    obtain ⟨hspc, h43c, h45c, h95c, _⟩ := isHexDigit_facts hc
    obtain ⟨hspd, _, _, h95d, _⟩ := isHexDigit_facts hd
    simp [pyIntBase16, pyTrim, pyIntBase16Core, List.dropWhile, hspc, hspd, h43c, h45c,
      hexDigitsOk, hexTailOk, h95c, h95d, hc, hd]
  · simp at hlen

lemma hexValue_le {l : List Char} (h : l.length ≤ 2) : hexValue l ≤ 255 := by
  unfold hexValue
  have hf : (l.filter fun c => c.toNat != 95).length ≤ 2 :=
    le_trans (List.length_filter_le _ _) h
  revert hf
  generalize (l.filter fun c => c.toNat != 95) = m
  intro hf
  rcases m with _ | ⟨c, _ | ⟨d, _ | ⟨e, m⟩⟩⟩
  · simp
  · simp only [List.foldl]
    have := hexDigitVal_le c
    omega
  · simp only [List.foldl]
    have := hexDigitVal_le c
    have := hexDigitVal_le d
    omega
  · simp at hf

lemma pyTrim_length (l : List Char) : (pyTrim l).length ≤ l.length := by
  unfold pyTrim
  have h1 : (l.dropWhile isPySpace).length ≤ l.length :=
    (List.dropWhile_suffix _).length_le
  have h2 : ((l.dropWhile isPySpace).reverse.dropWhile isPySpace).length ≤
      (l.dropWhile isPySpace).reverse.length :=
    (List.dropWhile_suffix _).length_le
  simp only [List.length_reverse] at h2 ⊢
  omega

lemma pyIntBase16Core_le_255 {t : List Char} (h : t.length ≤ 2) {v : Int}
    (hv : pyIntBase16Core t = some v) : v ≤ 255 := by
  rcases t with _ | ⟨c, rest⟩
  · simp [pyIntBase16Core] at hv
  · have hrest : rest.length ≤ 1 := by simpa using h
    simp only [pyIntBase16Core] at hv
    split_ifs at hv <;> simp only [Option.some.injEq] at hv
    · subst hv
      exact_mod_cast hexValue_le (le_trans hrest (by omega))
    · subst hv
      have : (0 : Int) ≤ (hexValue rest : Int) := Int.natCast_nonneg _
      omega
    · subst hv
      exact_mod_cast hexValue_le (by simpa using h)

lemma pyIntBase16_le_255 {l : List Char} (h : l.length ≤ 2) {v : Int}
    (hv : pyIntBase16 l = some v) : v ≤ 255 :=
  pyIntBase16Core_le_255 (le_trans (pyTrim_length l) h) hv

lemma pySlice_length_le (l : List Char) (a b : Nat) :
    (pySlice l a b).length ≤ b - a := by
  unfold pySlice
  simp [List.length_take]

lemma mapOpt_length {α β : Type} {f : α → Option β} {l : List α} {res : List β}
    (h : mapOpt f l = some res) : res.length = l.length := by
  induction l generalizing res with
  | nil =>
    simp only [mapOpt, Option.some.injEq] at h
    subst h; rfl
  | cons a l ih =>
    cases hfa : f a with
    | none => simp [mapOpt, hfa] at h
    | some b =>
      cases hml : mapOpt f l with
      | none => simp [mapOpt, hfa, hml] at h
      | some bs =>
        simp only [mapOpt, hfa, hml, Option.some.injEq] at h
        subst h
        simp [ih hml]

lemma mapOpt_getElem {α β : Type} {f : α → Option β} {l : List α} {res : List β}
    (h : mapOpt f l = some res) (i : Nat) : res[i]? = (l[i]?).bind f := by
  induction l generalizing res i with
  | nil =>
    simp only [mapOpt, Option.some.injEq] at h
    subst h; simp
  | cons a l ih =>
    cases hfa : f a with
    | none => simp [mapOpt, hfa] at h
    | some b =>
      cases hml : mapOpt f l with
      | none => simp [mapOpt, hfa, hml] at h
      | some bs =>
        simp only [mapOpt, hfa, hml, Option.some.injEq] at h
        subst h
        cases i with
        | zero => simp [hfa]
        | succ n => simp [ih hml]

lemma mapOpt_map_eq {α β γ : Type} {f : α → Option β} {l : List α} {res : List β}
    (h : mapOpt f l = some res) {g : β → γ} {k : α → γ}
    (hfk : ∀ a b, f a = some b → g b = k a) : res.map g = l.map k := by
  induction l generalizing res with
  | nil =>
    simp only [mapOpt, Option.some.injEq] at h
    subst h; simp
  | cons a l ih =>
    cases hfa : f a with
    | none => simp [mapOpt, hfa] at h
    | some b =>
      cases hml : mapOpt f l with
      | none => simp [mapOpt, hfa, hml] at h
      | some bs =>
        simp only [mapOpt, hfa, hml, Option.some.injEq] at h
        subst h
        simp [hfk a b hfa, ih hml]

lemma makeTextBox_eq {w : ℚ} {el : TextElement} {tb : TextBox}
    (h : makeTextBox w el = some tb) :
    ∃ rgb, hex_to_rgb (el.color.getD "#000000") = some rgb ∧
      tb = { left := max 0 (rawLeft w el), top := max 0 (rawTop el),
             width := px_to_inches (maxWidthOf w el),
             height := px_to_inches (el.fontSize * 2),
             text := el.text, alignment := get_alignment (anchorOf el),
             fontSizePt := el.fontSize * 72 / DPI,
             bold := el.fontWeight == some "bold",
             color := rgb, fontFamily := el.fontFamily.getD "Arial" } := by
  unfold makeTextBox at h
  cases hr : hex_to_rgb (el.color.getD "#000000") with
  | none => rw [hr] at h; simp at h
  | some rgb =>
    rw [hr] at h
    simp only [Option.some.injEq] at h
    exact ⟨rgb, rfl, h.symm⟩

lemma sliceRejected_some {l : List Char} {v : Int} (h : pyIntBase16 l = some v) :
    sliceRejected l ↔ v < 0 := by
  unfold sliceRejected
  rw [h]
  simp

lemma sliceRejected_of_none {l : List Char} (h : pyIntBase16 l = none) :
    sliceRejected l :=
  Or.inl h

lemma hex_to_rgb_black : hex_to_rgb "#000000" = some ⟨0, 0, 0⟩ := by decide

lemma makeTextBox_elM : makeTextBox 1000 elM = some tbM := by
  simp [makeTextBox, elM, tbM, hex_to_rgb_black, rawLeft, rawTop, maxWidthOf, anchorOf,
    get_alignment, px_to_inches, DPI, max_def]
  norm_num

lemma mainRun_envW : mainRun envW = .ok "out.pptx" docW := by
  simp [mainRun, envW, buildDocument, buildSlide, mapOpt, makeTextBox, elM, tbM, docW,
    layoutW, hex_to_rgb_black, rawLeft, rawTop, maxWidthOf, anchorOf, get_alignment,
    px_to_inches, DPI, max_def]
  norm_num

/-! ## Claims -/

/-- C2: for every element, horizontal placement and paragraph alignment are
determined jointly by its anchor: `"middle"` gives center alignment and left
edge `x/300 - boxWidth/2`; `"end"` gives right alignment and left edge
`x/300 - boxWidth`; any other value, an absent anchor included, gives left
alignment and left edge `x/300` (the stored left edge being these values
clamped at 0, with `boxWidth = maxWidth/300`). -/
theorem c2_anchor_mapping (w : ℚ) (el : TextElement) (tb : TextBox)
    (h : makeTextBox w el = some tb) :
    (el.anchor = some "middle" →
      tb.alignment = PPAlign.center ∧
      tb.left = max 0 (el.x / 300 - (maxWidthOf w el / 300) / 2)) ∧
    (el.anchor = some "end" →
      tb.alignment = PPAlign.right ∧
      tb.left = max 0 (el.x / 300 - maxWidthOf w el / 300)) ∧
    (el.anchor ≠ some "middle" → el.anchor ≠ some "end" →
      tb.alignment = PPAlign.left ∧ tb.left = max 0 (el.x / 300)) := by
  obtain ⟨rgb, -, rfl⟩ := makeTextBox_eq h
  refine ⟨fun ha => ?_, fun ha => ?_, fun ha1 ha2 => ?_⟩
  · constructor
    · simp [get_alignment, anchorOf, ha]
    · simp [rawLeft, anchorOf, ha, px_to_inches, DPI]
  · constructor
    · simp [get_alignment, anchorOf, ha]
    · simp [rawLeft, anchorOf, ha, px_to_inches, DPI]
  · cases hel : el.anchor with
    | none =>
      constructor
      · simp [get_alignment, anchorOf, hel]
      · simp [rawLeft, anchorOf, hel, px_to_inches, DPI]
    | some a =>
      have hm : a ≠ "middle" := fun hh => ha1 (by rw [hel, hh])
      have he : a ≠ "end" := fun hh => ha2 (by rw [hel, hh])
      constructor
      · simp [get_alignment, anchorOf, hel, hm, he]
      · simp [rawLeft, anchorOf, hel, hm, he, px_to_inches, DPI]

/-- Witness for C2 at `elM` (anchor `"middle"`, `x = 500`, default `maxWidth`
800 on a 1000-px layout). -/
theorem c2_anchor_mapping_witness :
    tbM.alignment = PPAlign.center ∧
    tbM.left = max 0 (elM.x / 300 - (maxWidthOf 1000 elM / 300) / 2) :=
  (c2_anchor_mapping 1000 elM tbM makeTextBox_elM).1 rfl

/-- C3: for every element the box geometry is: width `maxWidth/300` with
`maxWidth` defaulting to `0.8 * layout.width`; height `2*fontSize/300`; and
stored top edge the baseline shift `(y - fontSize)/300`, clamped at 0. -/
theorem c3_box_geometry (w : ℚ) (el : TextElement) (tb : TextBox)
    (h : makeTextBox w el = some tb) :
    tb.width = (el.maxWidth.getD (w * (8 / 10))) / 300 ∧
    tb.height = 2 * el.fontSize / 300 ∧
    tb.top = max 0 ((el.y - el.fontSize) / 300) := by
  obtain ⟨rgb, -, rfl⟩ := makeTextBox_eq h
  refine ⟨?_, ?_, ?_⟩
  · simp [px_to_inches, DPI, maxWidthOf]
  · simp only [px_to_inches, DPI]
    ring
  · simp [rawTop, px_to_inches, DPI]

/-- Witness for C3 at `elM`. -/
theorem c3_box_geometry_witness :
    tbM.width = (elM.maxWidth.getD (1000 * (8 / 10))) / 300 ∧
    tbM.height = 2 * elM.fontSize / 300 ∧
    tbM.top = max 0 ((elM.y - elM.fontSize) / 300) :=
  c3_box_geometry 1000 elM tbM makeTextBox_elM

/-- C4: `px_to_inches p = p/300`, the conversion is linear and monotonic, the
run's font size in points is `fontSize * 72 / 300`, and font size 40 yields
9.6 pt. -/
theorem c4_unit_conversion :
    (∀ p : ℚ, px_to_inches p = p / 300) ∧
    (∀ a b p q : ℚ,
      px_to_inches (a * p + b * q) = a * px_to_inches p + b * px_to_inches q) ∧
    (∀ p q : ℚ, p ≤ q → px_to_inches p ≤ px_to_inches q) ∧
    (∀ (w : ℚ) (el : TextElement) (tb : TextBox), makeTextBox w el = some tb →
      tb.fontSizePt = el.fontSize * 72 / 300) ∧
    (40 : ℚ) * 72 / 300 = 9.6 := by
  refine ⟨fun p => rfl, fun a b p q => ?_, fun p q h => ?_, fun w el tb h => ?_,
    by norm_num⟩
  · simp only [px_to_inches, DPI]
    ring
  · simp only [px_to_inches, DPI]
    exact div_le_div_of_nonneg_right h (by norm_num)
  · obtain ⟨rgb, -, rfl⟩ := makeTextBox_eq h
    simp [DPI]

/-- Witness for C4: monotonicity at 150 ≤ 300 and the font size of `tbM`. -/
theorem c4_unit_conversion_witness :
    px_to_inches 150 ≤ px_to_inches 300 ∧ tbM.fontSizePt = elM.fontSize * 72 / 300 :=
  ⟨c4_unit_conversion.2.2.1 150 300 (by norm_num),
   c4_unit_conversion.2.2.2.1 1000 elM tbM makeTextBox_elM⟩

/-- C5: stored left and top are `max 0` of the computed values: a value below
0 is stored as exactly 0, a value at or above 0 passes through unchanged —
with no upper clamp whatsoever (and hence none against the right or bottom
canvas edge). -/
theorem c5_min_clamping (w : ℚ) (el : TextElement) (tb : TextBox)
    (h : makeTextBox w el = some tb) :
    (0 ≤ tb.left ∧ 0 ≤ tb.top) ∧
    (rawLeft w el < 0 → tb.left = 0) ∧
    (0 ≤ rawLeft w el → tb.left = rawLeft w el) ∧
    (rawTop el < 0 → tb.top = 0) ∧
    (0 ≤ rawTop el → tb.top = rawTop el) := by
  obtain ⟨rgb, -, rfl⟩ := makeTextBox_eq h
  exact ⟨⟨le_max_left _ _, le_max_left _ _⟩,
    fun h1 => max_eq_left h1.le, fun h1 => max_eq_right h1,
    fun h1 => max_eq_left h1.le, fun h1 => max_eq_right h1⟩

/-- Witness for C5 at `elM`: nonnegative stored left, and pass-through of the
computed (nonnegative) left edge. -/
theorem c5_min_clamping_witness :
    0 ≤ tbM.left ∧ tbM.left = rawLeft 1000 elM :=
  ⟨(c5_min_clamping 1000 elM tbM makeTextBox_elM).1.1,
   (c5_min_clamping 1000 elM tbM makeTextBox_elM).2.2.1
     (by norm_num [rawLeft, elM, anchorOf, maxWidthOf, px_to_inches, DPI])⟩

/-- C9: the run's bold flag is true exactly when the element's fontWeight
field is the string `"bold"`; any other value, an absent field included,
yields non-bold. -/
theorem c9_bold_iff (w : ℚ) (el : TextElement) (tb : TextBox)
    (h : makeTextBox w el = some tb) :
    (tb.bold = true ↔ el.fontWeight = some "bold") := by
  obtain ⟨rgb, -, rfl⟩ := makeTextBox_eq h
  simp

/-- Witness for C9 at `elM` (absent fontWeight, non-bold box). -/
theorem c9_bold_iff_witness :
    (tbM.bold = true ↔ elM.fontWeight = some "bold") :=
  c9_bold_iff 1000 elM tbM makeTextBox_elM

/-- C1: a successful run produces a document with exactly one slide whose
canvas is width/300 by height/300 inches, whose first shape is the one
full-bleed background picture at the origin, followed by exactly one text box
per layout element, in the order of the input elements array. -/
theorem c1_document_shape (env : Env) (prog bg ly out : String) (layout : Layout)
    (doc : Document)
    (hargv : env.argv = [prog, bg, ly, out])
    (hlayout : env.readLayout ly = some layout)
    (hrun : mainRun env = .ok out doc) :
    doc.slides.length = 1 ∧
    ∀ slide ∈ doc.slides,
      slide.width = layout.width / 300 ∧
      slide.height = layout.height / 300 ∧
      ∃ boxes : List TextBox,
        slide.shapes =
          Shape.pic ⟨bg, 0, 0, layout.width / 300, layout.height / 300⟩ ::
            boxes.map Shape.tbox ∧
        boxes.length = layout.elements.length ∧
        (∀ i : Nat,
          boxes[i]? = (layout.elements[i]?).bind (makeTextBox layout.width)) ∧
        boxes.map TextBox.text = layout.elements.map TextElement.text := by
  unfold mainRun at hrun
  rw [hargv] at hrun
  dsimp only at hrun
  cases hfs : env.fileExists bg with
  | false => rw [hfs] at hrun; simp at hrun
  | true =>
    rw [hfs] at hrun
    rw [hlayout] at hrun
    dsimp only at hrun
    cases hbd : buildDocument bg layout with
    | none => rw [hbd] at hrun; simp at hrun
    | some d =>
      rw [hbd] at hrun
      simp only [MainResult.ok.injEq] at hrun
      obtain ⟨-, rfl⟩ := hrun
      unfold buildDocument at hbd
      cases hbs : buildSlide bg layout with
      | none => rw [hbs] at hbd; simp at hbd
      | some s =>
        rw [hbs] at hbd
        simp only [Option.some.injEq] at hbd
        subst hbd
        unfold buildSlide at hbs
        cases hmo : mapOpt (makeTextBox layout.width) layout.elements with
        | none => rw [hmo] at hbs; simp at hbs
        | some boxes =>
          rw [hmo] at hbs
          simp only [Option.some.injEq] at hbs
          subst hbs
          refine ⟨rfl, ?_⟩
          intro slide hs
          simp only [List.mem_singleton] at hs
          subst hs
          refine ⟨by simp [px_to_inches, DPI], by simp [px_to_inches, DPI], boxes,
            by simp [px_to_inches, DPI], mapOpt_length hmo, mapOpt_getElem hmo, ?_⟩
          refine mapOpt_map_eq hmo ?_
          intro el tb htb
          obtain ⟨rgb, -, rfl⟩ := makeTextBox_eq htb
          rfl

/-- Witness for C1 at the concrete environment `envW`. -/
theorem c1_document_shape_witness :
    docW.slides.length = 1 ∧
    ∀ slide ∈ docW.slides,
      slide.width = layoutW.width / 300 ∧
      slide.height = layoutW.height / 300 ∧
      ∃ boxes : List TextBox,
        slide.shapes =
          Shape.pic ⟨"bg.png", 0, 0, layoutW.width / 300, layoutW.height / 300⟩ ::
            boxes.map Shape.tbox ∧
        boxes.length = layoutW.elements.length ∧
        (∀ i : Nat,
          boxes[i]? = (layoutW.elements[i]?).bind (makeTextBox layoutW.width)) ∧
        boxes.map TextBox.text = layoutW.elements.map TextElement.text :=
  c1_document_shape envW "generate-pptx.py" "bg.png" "layout.json" "out.pptx"
    layoutW docW rfl rfl mainRun_envW

/-- C7: a wrong argument count or a missing background image exits with code
1 after a message on the error stream; an unparsable or incomplete layout
surfaces as an uncaught error; and no failing run produces an output document,
the one save being the final step of a successful run. -/
theorem c7_failfast (env : Env) :
    (env.argv.length ≠ 4 → mainRun env = .exited 1) ∧
    (∀ prog bg ly out, env.argv = [prog, bg, ly, out] →
      env.fileExists bg = false → mainRun env = .exited 1) ∧
    (∀ prog bg ly out, env.argv = [prog, bg, ly, out] →
      env.fileExists bg = true → env.readLayout ly = none →
      mainRun env = .uncaught) ∧
    ((∀ out doc, mainRun env ≠ .ok out doc) → outputOf (mainRun env) = none) := by
  refine ⟨?_, ?_, ?_, ?_⟩
  · intro hlen
    unfold mainRun
    rcases henv : env.argv with _ | ⟨a, _ | ⟨b, _ | ⟨c, _ | ⟨d, _ | ⟨e, rest⟩⟩⟩⟩⟩
    · rfl
    · rfl
    · rfl
    · rfl
    · exact absurd (by simp [henv]) hlen
    · rfl
  · intro prog bg ly out henv hfs
    unfold mainRun
    rw [henv]
    simp [hfs]
  · intro prog bg ly out henv hfs hrl
    unfold mainRun
    rw [henv]
    simp [hfs, hrl]
  · intro hnok
    cases hr : mainRun env with
    | exited c => rfl
    | uncaught => rfl
    | ok out doc => exact absurd hr (hnok out doc)

/-- Witness for C7: a missing background image exits with code 1. -/
theorem c7_failfast_witness :
    mainRun ⟨["generate-pptx.py", "missing.png", "layout.json", "out.pptx"],
      fun _ => false, fun _ => some layoutW⟩ = .exited 1 :=
  (c7_failfast _).2.1 "generate-pptx.py" "missing.png" "layout.json" "out.pptx" rfl rfl

/-- C8: the produced document is a pure function of the background-image file
and the parsed layout alone — two runs whose environments agree on those two
inputs produce identical slide geometry and styling, whatever the program
name or output path, so re-running deterministically reproduces the same
content. -/
theorem c8_determinism (fs1 fs2 : String → Bool) (rl1 rl2 : String → Option Layout)
    (prog1 prog2 bg ly out1 out2 : String)
    (hfs : fs1 bg = fs2 bg) (hrl : rl1 ly = rl2 ly) :
    outputOf (mainRun ⟨[prog1, bg, ly, out1], fs1, rl1⟩) =
    outputOf (mainRun ⟨[prog2, bg, ly, out2], fs2, rl2⟩) := by
  unfold mainRun
  dsimp only
  rw [hfs, hrl]
  cases fs2 bg with
  | false => rfl
  | true =>
    cases hr : rl2 ly with
    | none => rfl
    | some layout =>
      dsimp only
      cases hbd : buildDocument bg layout with
      | none => rfl
      | some doc => rfl

/-- Witness for C8: two runs differing only in program name and output path
yield the same document. -/
theorem c8_determinism_witness :
    outputOf (mainRun ⟨["p", "bg.png", "layout.json", "a.pptx"],
      fun _ => true, fun _ => some layoutW⟩) =
    outputOf (mainRun ⟨["q", "bg.png", "layout.json", "b.pptx"],
      fun _ => true, fun _ => some layoutW⟩) :=
  c8_determinism (fun _ => true) (fun _ => true) (fun _ => some layoutW)
    (fun _ => some layoutW) "p" "q" "bg.png" "layout.json" "a.pptx" "b.pptx" rfl rfl

/-- C6: `hex_to_rgb` decodes a 6-hex-digit string by the fixed-width slices
`[0:2]`, `[2:4]`, `[4:6]` into (red, green, blue); in particular
`hex_to_rgb "#a1b2c3" = (0xa1, 0xb2, 0xc3)`, and for a 6-hex-digit string a
leading `#` is optional and does not change the result. -/
theorem c6_hex_roundtrip (s : String)
    (hs : s.toList.all isHexDigit = true ∧ s.length = 6) :
    hex_to_rgb "#a1b2c3" = some ⟨0xa1, 0xb2, 0xc3⟩ ∧
    hex_to_rgb ("#" ++ s) = hex_to_rgb s ∧
    hex_to_rgb s = some ⟨hexValue (pySlice s.toList 0 2),
      hexValue (pySlice s.toList 2 4), hexValue (pySlice s.toList 4 6)⟩ := by
  obtain ⟨hall, hlen6⟩ := hs
  refine ⟨by decide, ?_, ?_⟩
  · have happ : ("#" ++ s).toList = '#' :: s.toList := by
      show ("#" ++ s).data = '#' :: s.data
      rw [String.data_append]
      rfl
    unfold hex_to_rgb
    rw [happ]
    simp [List.dropWhile_cons]
  · have hlen : s.toList.length = 6 := hlen6
    revert hall hlen
    unfold hex_to_rgb
    generalize s.toList = l
    intro hall hlen
    rcases l with _ | ⟨a, _ | ⟨b, _ | ⟨c, _ | ⟨d, _ | ⟨e, _ | ⟨f, rest⟩⟩⟩⟩⟩⟩ <;>
      simp only [List.length_cons, List.length_nil] at hlen <;> try omega
    obtain rfl : rest = [] := List.length_eq_zero.mp (by omega)
    simp only [List.all_cons, List.all_nil, Bool.and_eq_true, Bool.and_true] at hall
    obtain ⟨ha, hb, hc, hd, he, hf⟩ := hall
    have hdrop : ([a, b, c, d, e, f] : List Char).dropWhile (fun x => x == '#') =
        [a, b, c, d, e, f] := by
      simp [List.dropWhile_cons, (isHexDigit_facts ha).2.2.2.2]
    rw [hdrop]
    have hs0 : pySlice [a, b, c, d, e, f] 0 2 = [a, b] := rfl
    have hs1 : pySlice [a, b, c, d, e, f] 2 4 = [c, d] := rfl
    have hs2 : pySlice [a, b, c, d, e, f] 4 6 = [e, f] := rfl
    rw [hs0, hs1, hs2]
    rw [pyIntBase16_hexList (by simp) (by simp) (by simp [ha, hb]),
      pyIntBase16_hexList (by simp) (by simp) (by simp [hc, hd]),
      pyIntBase16_hexList (by simp) (by simp) (by simp [he, hf])]
    show mkRGBColor (hexValue [a, b] : Int) (hexValue [c, d] : Int)
        (hexValue [e, f] : Int) =
      some ⟨hexValue [a, b], hexValue [c, d], hexValue [e, f]⟩
    have hboundInt : ∀ m : List Char, m.length ≤ 2 → (hexValue m : Int) ≤ 255 :=
      fun m hm => by exact_mod_cast hexValue_le hm
    unfold mkRGBColor
    rw [if_pos ⟨Int.natCast_nonneg _, hboundInt [a, b] (by simp),
      Int.natCast_nonneg _, hboundInt [c, d] (by simp),
      Int.natCast_nonneg _, hboundInt [e, f] (by simp)⟩]
    simp

/-- Witness for C6 at the 6-hex-digit string `"aabbcc"`. -/
theorem c6_hex_roundtrip_witness :
    hex_to_rgb ("#" ++ "aabbcc") = hex_to_rgb "aabbcc" :=
  (c6_hex_roundtrip "aabbcc" ⟨by decide, by decide⟩).2.1

/-- C10 counterexample: on the input `" 1 2 3"` each slice contains a
non-hexadecimal character (a space), so the claimed condition predicts an
error, yet `hex_to_rgb` succeeds — Python's `int(·, 16)` tolerates
whitespace around the digits. -/
theorem c10_counterexample :
    c10ClaimedErrorCond " 1 2 3" = true ∧ hex_to_rgb " 1 2 3" ≠ none := by
  exact ⟨by decide, by decide⟩

/-- C10 (amended): `hex_to_rgb` raises exactly when one of the slices
`[0:2]`, `[2:4]`, `[4:6]` of the `#`-stripped string is rejected by Python's
base-16 integer parse (empty, or not an optionally whitespace-surrounded,
optionally signed hexadecimal digit string) or parses to a negative value,
which the `RGBColor` 0–255 range check rejects.  The claim's other
permissiveness observations hold as stated: every leading `#` is stripped,
characters after the sixth are ignored, and 5-hex-digit strings succeed with
a single-digit blue component. -/
theorem c10_error_iff (s : String) :
    (hex_to_rgb s = none ↔
      (sliceRejected (pySlice (s.toList.dropWhile fun c => c == '#') 0 2) ∨
       sliceRejected (pySlice (s.toList.dropWhile fun c => c == '#') 2 4) ∨
       sliceRejected (pySlice (s.toList.dropWhile fun c => c == '#') 4 6))) ∧
    hex_to_rgb "##a1b2c3" = hex_to_rgb "a1b2c3" ∧
    hex_to_rgb "a1b2c3ff" = hex_to_rgb "a1b2c3" ∧
    hex_to_rgb "a1b2c" = some ⟨0xa1, 0xb2, 0xc⟩ := by
  refine ⟨?_, by decide, by decide, by decide⟩
  have hiff : ∀ t : List Char,
      ((match pyIntBase16 (pySlice t 0 2), pyIntBase16 (pySlice t 2 4),
          pyIntBase16 (pySlice t 4 6) with
        | some r, some g, some b => mkRGBColor r g b
        | _, _, _ => none) = none ↔
        (sliceRejected (pySlice t 0 2) ∨ sliceRejected (pySlice t 2 4) ∨
         sliceRejected (pySlice t 4 6))) := by
    intro t
    cases hp0 : pyIntBase16 (pySlice t 0 2) with
    | none => simp [sliceRejected_of_none hp0]
    | some r =>
      cases hp1 : pyIntBase16 (pySlice t 2 4) with
      | none => simp [sliceRejected_of_none hp1]
      | some g =>
        cases hp2 : pyIntBase16 (pySlice t 4 6) with
        | none => simp [sliceRejected_of_none hp2]
        | some b =>
          have hr255 := pyIntBase16_le_255 (pySlice_length_le t 0 2) hp0
          have hg255 := pyIntBase16_le_255 (pySlice_length_le t 2 4) hp1
          have hb255 := pyIntBase16_le_255 (pySlice_length_le t 4 6) hp2
          rw [sliceRejected_some hp0, sliceRejected_some hp1, sliceRejected_some hp2]
          dsimp only
          unfold mkRGBColor
          constructor
          · intro hnone
            by_cases hcond : 0 ≤ r ∧ r ≤ 255 ∧ 0 ≤ g ∧ g ≤ 255 ∧ 0 ≤ b ∧ b ≤ 255
            · rw [if_pos hcond] at hnone
              exact absurd hnone (by simp)
            · omega
          · intro hneg
            rw [if_neg (by omega)]
  exact hiff (s.toList.dropWhile fun c => c == '#')

end GenPptx
